import Mathlib

/-!
Verification development for the `evdm` event-routing kernel
(`src/evdm/bus.py`).  The dispatcher (`HEB`, "Hierarchical Event Bus")
is shallowly embedded as a state machine:

* `BusType` is the closed enumeration from `bus.py`.
* `BusKey` models the value actually passed where a bus is expected:
  Python is dynamically typed, so a caller may pass any value; `.invalid`
  stands for any non-`BusType` value.  The `listeners` dict is created in
  `HEB.__init__` with exactly the six `BusType` keys and no key is ever
  added or removed (`register` only appends to an existing list), so a
  lookup succeeds exactly on `.valid` keys and raises `KeyError`
  otherwise; the spec calls that failure `UnknownBus`.
* `Event` is the dataclass (`created_on`, `data`); `datetime.now()` is
  modelled by an explicit clock argument, the payload dict by an
  association list.
* Actor instances are identified by an `ActorId` (Python object
  identity); an actor's `act` behaviour is an environment `Env` giving,
  for an instance and an event, the ordered list of `heb.put` emissions
  it performs and an optional exception raised after them.  All actors in
  the repository use the dispatcher handle only to call `put`.
* asyncio's single-threaded cooperative scheduler is modelled by a FIFO
  queue of not-yet-run tasks (`background_tasks`): `create_task` appends,
  a task runs atomically (`act` bodies in the model do not suspend
  mid-way), and the done-callback discard is the removal of the task when
  it is run.  `step` runs the front task; `runSteps` is the fuel-bounded
  scheduler; a `TraceItem` records each actor-method invocation the
  dispatcher performs.
* `HEB.close` is `await asyncio.gather(*self._background_tasks)`: it
  takes the snapshot of currently outstanding tasks (the whole queue at
  call time), waits until every member of that snapshot has completed,
  and — since `gather` is used with `return_exceptions=False` — wakes up
  raising the first exception as soon as one snapshot task fails.  Under
  the FIFO discipline the snapshot members are exactly the first
  `snapshot.length` tasks run, so `close` is `closeLoop` with that much
  fuel, stopping early at the first failed task.
-/

namespace Evdm

/-- Bus types for a Spoken Dialog System (`BusType` in `bus.py`). -/
inductive BusType
  | Memory
  | Semantics
  | Texts
  | AudioSegments
  | AudioSignals
  | Devices
deriving DecidableEq, Repr

/-- A value passed where a bus is expected.  `.valid` is a member of the
closed enumeration; `.invalid n` stands for any other Python value
(distinguished by an arbitrary tag). -/
inductive BusKey
  | valid (b : BusType)
  | invalid (tag : Nat)
deriving DecidableEq, Repr

/-- Whether a bus argument is a member of the closed enumeration. -/
def BusKey.isKnown : BusKey → Bool
  | .valid _ => true
  | .invalid _ => false

/-- Payload of an event: the opaque `data: dict` of the `Event`
dataclass, modelled as an association list. -/
abbrev Payload := List (String × Int)

/-- Event that runs on the buses (`Event` dataclass in `bus.py` /
`events.py`). -/
structure Event where
  created_on : Nat
  data : Payload
deriving DecidableEq, Repr

/-- `make_event(data)` stamps the current time and wraps the payload;
`datetime.now()` is the explicit `now` argument. -/
def make_event (now : Nat) (data : Payload) : Event :=
  { created_on := now, data := data }

/-- Identity of an actor instance (Python object identity).  The
registry stores instances; the same instance may appear under several
buses or several times under one bus. -/
abbrev ActorId := Nat

/-- One spawned unit of work: the asyncio task created by
`asyncio.create_task(listener.act(event, self))`. -/
structure Task where
  event : Event
  actor : ActorId
deriving DecidableEq, Repr

/-- Dispatcher state: the `listeners` registry (total over the six
`BusType` keys, see the header note on `BusKey`) and the
`_background_tasks` set, ordered as the FIFO ready queue of
not-yet-run tasks. -/
structure HEB where
  listeners : BusType → List ActorId
  background_tasks : List Task

/-- `HEB.__init__`: every bus starts with an empty listener list and no
background tasks. -/
def HEB.init : HEB :=
  { listeners := fun _ => [], background_tasks := [] }

/-- The failure raised by a dispatcher operation that looks up an
unrecognized bus: Python's `KeyError` on `self.listeners[bus]`, called
`UnknownBus` by the spec. -/
inductive BusError
  | UnknownBus
deriving DecidableEq, Repr

/-- Dict lookup `self.listeners[bus]`: the dict's keys are exactly the
six `BusType` values for the whole life of the dispatcher, so the lookup
yields the current list on `.valid` keys and fails on anything else. -/
def lookupListeners (h : HEB) (bus : BusKey) : Option (List ActorId) :=
  match bus with
  | .valid b => some (h.listeners b)
  | .invalid _ => none

/-- `HEB.put(event, bus)`: for every listener currently registered on
`bus`, in list order, create a task running `listener.act(event, self)`
and add it to `_background_tasks`; return without awaiting any of them.
An unrecognized bus raises (`KeyError` / `UnknownBus`) before any task
is spawned. -/
def HEB.put (h : HEB) (e : Event) (bus : BusKey) : Except BusError HEB :=
  match lookupListeners h bus with
  | none => .error .UnknownBus
  | some ls =>
      .ok { h with
              background_tasks :=
                h.background_tasks ++ ls.map (fun a => { event := e, actor := a }) }

/-- `HEB.register(actor, listen_on)`: append `actor` to the listener
list of `listen_on`; an unrecognized bus raises (`KeyError` /
`UnknownBus`).  Nothing else in the state changes. -/
def HEB.register (h : HEB) (a : ActorId) (listen_on : BusKey) : Except BusError HEB :=
  match lookupListeners h listen_on with
  | none => .error .UnknownBus
  | some ls =>
      .ok { h with
              listeners :=
                fun b => if BusKey.valid b = listen_on then ls ++ [a] else h.listeners b }

/-- The exception with which a spawned task finishes, if any: either the
actor's own raise (`exc`, with an abstract code) or the `KeyError` of a
`heb.put` on an unrecognized bus inside `act`. -/
inductive TaskErr
  | exc (code : Nat)
  | keyError
deriving DecidableEq, Repr

/-- Behaviour of actor instances: for an instance and an event, the
ordered list of `heb.put(event, bus)` calls its `act` performs, and
`some code` when `act` raises after those emissions.  This is the
abstraction of the repository's concrete `Actor.act` bodies, all of
which interact with the dispatcher only through `put`. -/
abbrev Env := ActorId → Event → List (Event × BusKey) × Option Nat

/-- Perform the sequence of `heb.put` calls an `act` body makes, in
order; a put on an unrecognized bus raises inside `act`, aborting the
remaining emissions and failing the task with that `KeyError`. -/
def emitAll (h : HEB) : List (Event × BusKey) → HEB × Option TaskErr
  | [] => (h, none)
  | (e, k) :: rest =>
      match HEB.put h e k with
      | .error _ => (h, some TaskErr.keyError)
      | .ok h' => emitAll h' rest

/-- Run one spawned task to completion (the actor's `act` invocation):
perform its emissions, then record its failure, if any.  The task itself
has already been removed from the queue of `h`. -/
def runTask (env : Env) (t : Task) (h : HEB) : HEB × Option TaskErr :=
  let r := env t.actor t.event
  let s := emitAll h r.1
  match s.2 with
  | some err => (s.1, some err)
  | none => (s.1, r.2.map TaskErr.exc)

/-- Observable actor-method invocations performed by the dispatcher.
`act` records one `act(event, heb)` invocation together with the
exception it finished with, if any; `closeHook` would record an
invocation of a per-actor `close()` lifecycle hook. -/
inductive TraceItem
  | act (a : ActorId) (e : Event) (err : Option TaskErr)
  | closeHook (a : ActorId)
deriving DecidableEq, Repr

/-- One scheduler step: run the front task of the ready queue (if any),
producing the new state and the trace of the invocation performed. -/
def step (env : Env) (h : HEB) : Option (HEB × TraceItem) :=
  match h.background_tasks with
  | [] => none
  | t :: rest =>
      let r := runTask env t { h with background_tasks := rest }
      some (r.1, TraceItem.act t.actor t.event r.2)

/-- Fuel-bounded scheduler run: perform up to `n` steps, stopping early
when the queue is empty; returns the final state and the invocation
trace. -/
def runSteps (env : Env) : Nat → HEB → HEB × List TraceItem
  | 0, h => (h, [])
  | n + 1, h =>
      match step env h with
      | none => (h, [])
      | some (h', item) =>
          let r := runSteps env n h'
          (r.1, item :: r.2)

/-- Drive the scheduler until every member of the gathered snapshot has
completed: with FIFO scheduling the snapshot members are exactly the
first `n` tasks run, where `n` is the snapshot size.  With
`return_exceptions=False`, `gather` re-raises the first exception as
soon as one of the awaited tasks fails, without awaiting the remaining
ones; the error result therefore carries that first failure together
with the state at that moment (whose queue is the work left
outstanding). -/
def closeLoop (env : Env) : Nat → HEB → Except (TaskErr × HEB) HEB × List TraceItem
  | 0, h => (.ok h, [])
  | n + 1, h =>
      match step env h with
      | none => (.ok h, [])
      | some (h', item) =>
          match item with
          | .act a e (some err) => (.error (err, h'), [TraceItem.act a e (some err)])
          | _ =>
              let r := closeLoop env n h'
              (r.1, item :: r.2)

/-- `HEB.close()`: `await asyncio.gather(*self._background_tasks)` — the
argument list is evaluated once, so the snapshot gathered is the set of
tasks outstanding at the moment of the call, nothing more.  The body
contains no other statement: in particular no actor lifecycle method is
invoked. -/
def HEB.close (env : Env) (h : HEB) : Except (TaskErr × HEB) HEB × List TraceItem :=
  closeLoop env h.background_tasks.length h

/-- State carried by a `close` result (on the error path, the state at
the moment `gather` re-raised). -/
def resultState : Except (TaskErr × HEB) HEB → HEB
  | .ok h => h
  | .error (_, h) => h

/-- Exception propagated out of `close`, if any. -/
def closeErr : Except (TaskErr × HEB) HEB → Option TaskErr
  | .ok _ => none
  | .error (e, _) => some e

/-- Sequence of external `await heb.put(e, bus)` calls, as performed by
the driving program between scheduler activity. -/
def putMany (h : HEB) (es : List Event) (bus : BusKey) : Except BusError HEB :=
  match es with
  | [] => .ok h
  | e :: rest =>
      match HEB.put h e bus with
      | .error err => .error err
      | .ok h' => putMany h' rest bus

/-- The state produced by a successful `register` on a known bus
(closed form of the `.ok` branch of `HEB.register`). -/
def registerOk (h : HEB) (a : ActorId) (b : BusType) : HEB :=
  { h with
      listeners :=
        fun b' => if BusKey.valid b' = BusKey.valid b then h.listeners b ++ [a]
                  else h.listeners b' }

/-- Sequence of `register` calls on known buses, in program order. -/
def regMany (h : HEB) : List (ActorId × BusType) → HEB
  | [] => h
  | (a, b) :: rest => regMany (registerOk h a b) rest

/-- Closed form of the tasks spawned (and the failure hit) by a list of
emissions performed against a registry `ls`: each emission on a known
bus spawns one task per current listener in order; the first emission on
an unknown bus raises `KeyError` and drops the rest. -/
def actChildren (ls : BusType → List ActorId) :
    List (Event × BusKey) → List Task × Option TaskErr
  | [] => ([], none)
  | (e, .valid b) :: rest =>
      let r := actChildren ls rest
      ((ls b).map (fun a => { event := e, actor := a }) ++ r.1, r.2)
  | (_, .invalid _) :: _ => ([], some TaskErr.keyError)

/-- Tasks a given task spawns when it runs, under behaviour `env` and
registry `ls`. -/
def taskChildren (env : Env) (ls : BusType → List ActorId) (t : Task) : List Task :=
  (actChildren ls (env t.actor t.event).1).1

/-- Exception a given task finishes with when it runs, under behaviour
`env` and registry `ls`. -/
def taskErrOf (env : Env) (ls : BusType → List ActorId) (t : Task) : Option TaskErr :=
  match (actChildren ls (env t.actor t.event).1).2 with
  | some err => some err
  | none => (env t.actor t.event).2.map TaskErr.exc

/-- Concatenated children of a list of tasks, in order. -/
def tasksChildrenAll (env : Env) (ls : BusType → List ActorId) : List Task → List Task
  | [] => []
  | t :: ts => taskChildren env ls t ++ tasksChildrenAll env ls ts

/-- All tasks spawned by publishing each of `es`, in order, on a bus
whose listener list is `L`: the (event, listener) product in creation
order. -/
def prodTasks (L : List ActorId) : List Event → List Task
  | [] => []
  | e :: es => L.map (fun a => { event := e, actor := a }) ++ prodTasks L es

theorem put_valid (h : HEB) (e : Event) (b : BusType) :
    h.put e (.valid b)
      = .ok ⟨h.listeners,
             h.background_tasks ++ (h.listeners b).map (fun a => { event := e, actor := a })⟩ :=
  rfl

theorem register_valid (h : HEB) (a : ActorId) (b : BusType) :
    h.register a (.valid b) = .ok (registerOk h a b) :=
  rfl

theorem registerOk_listeners_same (h : HEB) (a : ActorId) (b : BusType) :
    (registerOk h a b).listeners b = h.listeners b ++ [a] := by
  simp [registerOk]

theorem registerOk_listeners_other (h : HEB) (a : ActorId) (b b' : BusType)
    (hne : b' ≠ b) :
    (registerOk h a b).listeners b' = h.listeners b' := by
  simp [registerOk, hne]

theorem registerOk_tasks (h : HEB) (a : ActorId) (b : BusType) :
    (registerOk h a b).background_tasks = h.background_tasks := by
  simp [registerOk]

theorem emitAll_eq (ls : BusType → List ActorId) :
    ∀ (ems : List (Event × BusKey)) (q : List Task),
      emitAll ⟨ls, q⟩ ems = (⟨ls, q ++ (actChildren ls ems).1⟩, (actChildren ls ems).2)
  | [], q => by simp [emitAll, actChildren]
  | (e, .valid b) :: rest, q => by
      have ih := emitAll_eq ls rest (q ++ (ls b).map (fun a => { event := e, actor := a }))
      simp only [emitAll, HEB.put, lookupListeners, actChildren]
      rw [ih]
      simp [List.append_assoc]
  | (e, .invalid n) :: rest, q => by
      simp [emitAll, HEB.put, lookupListeners, actChildren]

theorem runTask_eq (env : Env) (ls : BusType → List ActorId) (t : Task) (q : List Task) :
    runTask env t ⟨ls, q⟩ = (⟨ls, q ++ taskChildren env ls t⟩, taskErrOf env ls t) := by
  simp only [runTask, taskChildren, taskErrOf, emitAll_eq]
  cases hc : (actChildren ls (env t.actor t.event).1).2 <;> simp

/-- FIFO prefix property of the scheduler: with the queue `ts ++ rest`
and fuel `ts.length`, exactly the tasks of `ts` run, in order; their
children are appended behind `rest`; the registry is untouched; the
trace records one `act` invocation per task of `ts`, in order. -/
theorem runSteps_firstN (env : Env) (ls : BusType → List ActorId) :
    ∀ (ts rest : List Task),
      runSteps env ts.length ⟨ls, ts ++ rest⟩
        = (⟨ls, rest ++ tasksChildrenAll env ls ts⟩,
           ts.map (fun t => TraceItem.act t.actor t.event (taskErrOf env ls t)))
  | [], rest => by simp [runSteps, tasksChildrenAll]
  | t :: ts, rest => by
      have ih := runSteps_firstN env ls ts (rest ++ taskChildren env ls t)
      simp only [List.length_cons, runSteps, step, List.cons_append, runTask_eq]
      rw [List.append_assoc, ih]
      simp [tasksChildrenAll, List.append_assoc, List.map_cons]

/-- Every invocation `close` performs is an `act` invocation of a task
it awaits: its body is a single `gather` and contains no call to any
other actor method. -/
theorem closeLoop_trace_acts (env : Env) :
    ∀ (n : Nat) (h : HEB) (item : TraceItem),
      item ∈ (closeLoop env n h).2 → ∃ a e r, item = TraceItem.act a e r
  | 0, _, item => by simp [closeLoop]
  | n + 1, h, item => by
      cases hq : h.background_tasks with
      | nil => simp [closeLoop, step, hq]
      | cons t rest =>
          cases herr : (runTask env t { h with background_tasks := rest }).2 with
          | none =>
              simp only [closeLoop, step, hq, herr]
              intro hmem
              rcases List.mem_cons.mp hmem with hitem | hitem
              · exact ⟨t.actor, t.event, none, hitem⟩
              · exact closeLoop_trace_acts env n
                  (runTask env t { h with background_tasks := rest }).1 item hitem
          | some err =>
              simp only [closeLoop, step, hq, herr]
              intro hmem
              exact ⟨t.actor, t.event, some err, by simpa using hmem⟩

/-- When `close` propagates an exception, it is the exception of the
first failed task it awaited: every invocation before it in the trace
completed without failure, and nothing after it was awaited. -/
theorem closeLoop_error_first (env : Env) :
    ∀ (n : Nat) (h : HEB) (e : TaskErr),
      closeErr (closeLoop env n h).1 = some e →
      ∃ pre a ev,
        (closeLoop env n h).2 = pre ++ [TraceItem.act a ev (some e)] ∧
        ∀ item ∈ pre, ∃ a' e', item = TraceItem.act a' e' none
  | 0, h, e => by simp [closeLoop, closeErr]
  | n + 1, h, e => by
      cases hq : h.background_tasks with
      | nil => simp [closeLoop, step, hq, closeErr]
      | cons t rest =>
          cases herr : (runTask env t { h with background_tasks := rest }).2 with
          | none =>
              simp only [closeLoop, step, hq, herr]
              intro hcl
              obtain ⟨pre, a, ev, hdec, hpre⟩ :=
                closeLoop_error_first env n
                  (runTask env t { h with background_tasks := rest }).1 e hcl
              refine ⟨TraceItem.act t.actor t.event none :: pre, a, ev, ?_, ?_⟩
              · simp [hdec]
              · intro item hitem
                rcases List.mem_cons.mp hitem with hitem | hitem
                · exact ⟨t.actor, t.event, hitem⟩
                · exact hpre item hitem
          | some err =>
              simp only [closeLoop, step, hq, herr, closeErr]
              intro hcl
              obtain rfl : err = e := by simpa using hcl
              exact ⟨[], t.actor, t.event, by simp, by simp⟩

theorem putMany_valid (b : BusType) :
    ∀ (es : List Event) (ls : BusType → List ActorId) (q : List Task),
      putMany ⟨ls, q⟩ es (.valid b) = .ok ⟨ls, q ++ prodTasks (ls b) es⟩
  | [], ls, q => by simp [putMany, prodTasks]
  | e :: es, ls, q => by
      have ih := putMany_valid b es ls (q ++ (ls b).map (fun a => { event := e, actor := a }))
      simp only [putMany, HEB.put, lookupListeners]
      rw [ih]
      simp [prodTasks, List.append_assoc]

theorem prodTasks_length (L : List ActorId) :
    ∀ es : List Event, (prodTasks L es).length = es.length * L.length
  | [] => by simp [prodTasks]
  | e :: es => by
      simp [prodTasks, prodTasks_length L es, Nat.succ_mul, Nat.add_comm]

theorem mem_prodTasks (L : List ActorId) (t : Task) :
    ∀ es : List Event, t ∈ prodTasks L es ↔ t.event ∈ es ∧ t.actor ∈ L
  | [] => by simp [prodTasks]
  | e :: es => by
      obtain ⟨te, ta⟩ := t
      simp only [prodTasks, List.mem_append, List.mem_map, List.mem_cons,
        mem_prodTasks L ⟨te, ta⟩ es, Task.mk.injEq]
      constructor
      · rintro (⟨a, ha, rfl, rfl⟩ | ⟨h1, h2⟩)
        · exact ⟨Or.inl rfl, ha⟩
        · exact ⟨Or.inr h1, h2⟩
      · rintro ⟨rfl | h1, h2⟩
        · exact Or.inl ⟨ta, h2, rfl, rfl⟩
        · exact Or.inr ⟨h1, h2⟩

theorem nodup_prodTasks (L : List ActorId) :
    ∀ es : List Event, es.Nodup → L.Nodup → (prodTasks L es).Nodup
  | [], _, _ => by simp [prodTasks]
  | e :: es, hes, hL => by
      rw [List.nodup_cons] at hes
      refine List.nodup_append.mpr ⟨?_, nodup_prodTasks L es hes.2 hL, ?_⟩
      · exact hL.map (fun a a' ha => by simpa using ha)
      · intro x hx hx'
        obtain ⟨a, _, rfl⟩ := List.mem_map.mp hx
        exact hes.1 ((mem_prodTasks L _ es).mp hx').1

theorem regMany_listeners (b : BusType) :
    ∀ (regs : List (ActorId × BusType)) (h : HEB),
      (regMany h regs).listeners b
        = h.listeners b ++ (regs.filter (fun p => p.2 == b)).map Prod.fst
  | [], h => by simp [regMany]
  | (a, b') :: regs, h => by
      have ih := regMany_listeners b regs (registerOk h a b')
      simp only [regMany]
      rw [ih]
      by_cases hb : b' = b
      · subst hb
        simp [registerOk_listeners_same, List.filter_cons]
      · simp [registerOk_listeners_other h a b' b (Ne.symm hb), List.filter_cons, hb]

theorem regMany_tasks :
    ∀ (regs : List (ActorId × BusType)) (h : HEB),
      (regMany h regs).background_tasks = h.background_tasks
  | [], h => rfl
  | (a, b') :: regs, h => by
      simp [regMany, regMany_tasks regs (registerOk h a b'), registerOk_tasks]

/-! Concrete scenario fixtures, built with the dispatcher's own
operations: events as produced by `make_event`, registries reached by
`register` calls from the initial state. -/

/-- An event `make_event({"number": 0})` published externally. -/
def e1C : Event := make_event 0 [("number", 0)]

/-- The event an `Incrementor`-style listener re-emits while reacting to
`e1C`. -/
def e2C : Event := make_event 1 [("number", 1)]

/-- Behaviour of the test pipeline of `tests/test_bus.py`: instance `0`
(the `Incrementor`) reacts by re-emitting on the `Texts` bus; instance
`1` (the `Tap`) reacts without emitting or failing. -/
def envC1 : Env :=
  fun a _ => if a = 0 then ([(e2C, BusKey.valid BusType.Texts)], none) else ([], none)

/-- Registry after `register(Incrementor(), Devices)` and
`register(tap, Texts)` from a fresh dispatcher. -/
def hC1pre : HEB := registerOk (registerOk HEB.init 0 BusType.Devices) 1 BusType.Texts

/-- Dispatcher state right after `put(e1C, Devices)` on `hC1pre`: one
spawned unit of work, the Incrementor's `act`, still outstanding. -/
def hC1 : HEB :=
  { listeners := hC1pre.listeners, background_tasks := [{ event := e1C, actor := 0 }] }

/-- Trivial behaviour: every actor reacts without emitting or failing. -/
def envTriv : Env := fun _ _ => ([], none)

/-- Registry with the single instance `0` registered once, on the
`Devices` bus; no outstanding work. -/
def hC2 : HEB := registerOk HEB.init 0 BusType.Devices

/-- Behaviour in which every instance's `act` raises (instance `a`
raises the exception coded `a`) without emitting. -/
def envC5 : Env := fun a _ => ([], some a)

/-- Registry with the two instances `0` and `1` registered on the
`Devices` bus. -/
def hC5pre : HEB := registerOk (registerOk HEB.init 0 BusType.Devices) 1 BusType.Devices

/-- Dispatcher state right after `put(e1C, Devices)` on `hC5pre`: two
spawned units of work outstanding, one per listener. -/
def hC5 : HEB :=
  { listeners := hC5pre.listeners,
    background_tasks := [{ event := e1C, actor := 0 }, { event := e1C, actor := 1 }] }

/-- Predicate picking out a `close()` lifecycle-hook invocation of
instance `0` in an invocation trace. -/
def isCloseHook0 : TraceItem → Bool
  | TraceItem.closeHook 0 => true
  | _ => false

/-- C1: evaluation of `HEB.close` at the failing input.  From the state
reached by registering a re-emitting listener on `Devices`, a downstream
listener on `Texts`, and publishing one event on `Devices`, `close`
gathers the one-element snapshot of `_background_tasks`, and returns
normally while the unit of work spawned during the drain (the downstream
listener's `act`) is still outstanding: the drain performs no second
snapshot, so it does not return "only when zero units of work remain
outstanding anywhere in the transitively generated graph". -/
theorem close_returns_with_outstanding_work :
    hC1pre.put e1C (BusKey.valid BusType.Devices) = .ok hC1 ∧
    closeErr (HEB.close envC1 hC1).1 = none ∧
    (resultState (HEB.close envC1 hC1).1).background_tasks
      = [{ event := e2C, actor := 1 }] := by
  exact ⟨rfl, rfl, rfl⟩

/-- C2 counterexample: instance `0` is registered on one bus, yet the
shutdown performed by `HEB.close` from that state invokes its `close()`
hook zero times, not exactly once — `close` only awaits background
tasks; neither it nor the `Actor` contract has any per-actor lifecycle
hook. -/
theorem close_invokes_no_actor_hook_at_hC2 :
    hC2.listeners BusType.Devices = [0] ∧
    ¬ ((HEB.close envTriv hC2).2.countP isCloseHook0 = 1) := by
  exact ⟨rfl, by decide⟩

/-- C2 amended: during shutdown, `HEB.close` invokes no `close()`
lifecycle hook on any actor, however many buses the actor is registered
on: every invocation appearing in the shutdown trace is an `act`
invocation of an awaited task (the `Actor` contract of the repository
defines no `close` hook and `HEB.close` only awaits its snapshot of
background tasks). -/
theorem close_performs_only_act_invocations (env : Env) (h : HEB) (item : TraceItem)
    (hmem : item ∈ (HEB.close env h).2) :
    ∃ a e r, item = TraceItem.act a e r :=
  closeLoop_trace_acts env h.background_tasks.length h item hmem

/-- C2 witness: the amended theorem applied to the one invocation
`close` performs from the concrete state `hC1`. -/
theorem close_performs_only_act_invocations_w :
    ∃ a e r, TraceItem.act 0 e1C none = TraceItem.act a e r :=
  close_performs_only_act_invocations envC1 hC1 (TraceItem.act 0 e1C none) (by decide)

/-- C5 counterexample: with the two instances `0` and `1` registered on
`Devices`, both of whose `act` invocations raise (exceptions coded `0`
and `1`, as the full scheduler run shows), `close` from the published
state propagates only the first exception, returns with the second task
never awaited, and aggregates nothing: the accumulated failures are not
"surfaced together in aggregate when shutdown completes". -/
theorem close_surfaces_only_first_failure_at_hC5 :
    hC5pre.put e1C (BusKey.valid BusType.Devices) = .ok hC5 ∧
    (runSteps envC5 2 hC5).2
      = [TraceItem.act 0 e1C (some (TaskErr.exc 0)),
         TraceItem.act 1 e1C (some (TaskErr.exc 1))] ∧
    closeErr (HEB.close envC5 hC5).1 = some (TaskErr.exc 0) ∧
    (resultState (HEB.close envC5 hC5).1).background_tasks
      = [{ event := e1C, actor := 1 }] := by
  exact ⟨rfl, rfl, rfl, rfl⟩

/-- C5 amended: a failure raised by an actor's `act` is never raised at
publish time — `put` on a known bus always succeeds, whatever the
actors' behaviour — and is recorded in the spawned task; when `close`
propagates a failure, it is exactly the first failure among the tasks it
awaited (every earlier awaited task completed cleanly), and the failures
of the tasks it never awaited are discarded rather than aggregated. -/
theorem put_defers_close_raises_first_failure (env : Env) (n : Nat) (h : HEB)
    (e : TaskErr) (herr : closeErr (closeLoop env n h).1 = some e) :
    (∀ (g : HEB) (ev : Event) (b : BusType), ∃ g', g.put ev (BusKey.valid b) = .ok g') ∧
    ∃ pre a ev,
      (closeLoop env n h).2 = pre ++ [TraceItem.act a ev (some e)] ∧
      ∀ item ∈ pre, ∃ a' e', item = TraceItem.act a' e' none :=
  ⟨fun g ev b => ⟨_, put_valid g ev b⟩, closeLoop_error_first env n h e herr⟩

/-- C5 witness: the amended theorem applied at the concrete two-failure
state `hC5`, where the propagated failure is the first one. -/
theorem put_defers_close_raises_first_failure_w :
    (∀ (g : HEB) (ev : Event) (b : BusType), ∃ g', g.put ev (BusKey.valid b) = .ok g') ∧
    ∃ pre a ev,
      (closeLoop envC5 2 hC5).2 = pre ++ [TraceItem.act a ev (some (TaskErr.exc 0))] ∧
      ∀ item ∈ pre, ∃ a' e', item = TraceItem.act a' e' none :=
  put_defers_close_raises_first_failure envC5 2 hC5 (TaskErr.exc 0) (by decide)

/-- C3: `put` and `register` fail, synchronously at the lookup of the
listeners dict and before mutating anything or spawning any task,
exactly when the bus argument lies outside the closed enumeration (the
`KeyError` the spec names `UnknownBus`); for every member of the
enumeration neither operation can produce that error. -/
theorem unknown_bus_fails_fast (h : HEB) (e : Event) (a : ActorId) (k : BusKey) :
    (h.put e k = .error BusError.UnknownBus ↔ k.isKnown = false) ∧
    (h.register a k = .error BusError.UnknownBus ↔ k.isKnown = false) ∧
    (k.isKnown = true → (∃ h', h.put e k = .ok h') ∧ ∃ h', h.register a k = .ok h') := by
  cases k with
  | valid b => simp [HEB.put, HEB.register, lookupListeners, BusKey.isKnown]
  | invalid n => simp [HEB.put, HEB.register, lookupListeners, BusKey.isKnown]

/-- C3 witness: a bus value outside the enumeration makes both
operations fail with `UnknownBus` from the initial state. -/
theorem unknown_bus_fails_fast_w :
    HEB.init.put e1C (BusKey.invalid 7) = .error BusError.UnknownBus ∧
    HEB.init.register 0 (BusKey.invalid 7) = .error BusError.UnknownBus :=
  ⟨(unknown_bus_fails_fast HEB.init e1C 0 (BusKey.invalid 7)).1.mpr rfl,
   (unknown_bus_fails_fast HEB.init e1C 0 (BusKey.invalid 7)).2.1.mpr rfl⟩

/-- C4: publishing one event on a bus with listener list `ls b` spawns
one task per listener; running the scheduler those `(ls b).length` steps
invokes every listener's `act` exactly once, in order, and appends every
event each of them emitted — for an arbitrary behaviour `env`, hence in
particular when any of the siblings' `act` fails: a failure is recorded
in that sibling's own trace entry and neither removes another sibling's
task nor suppresses another sibling's emissions. -/
theorem sibling_isolation (env : Env) (ls : BusType → List ActorId) (b : BusType)
    (e : Event) :
    HEB.put ⟨ls, []⟩ e (BusKey.valid b)
      = .ok ⟨ls, (ls b).map (fun a => { event := e, actor := a })⟩ ∧
    runSteps env (ls b).length ⟨ls, (ls b).map (fun a => { event := e, actor := a })⟩
      = (⟨ls, tasksChildrenAll env ls ((ls b).map (fun a => { event := e, actor := a }))⟩,
         (ls b).map (fun a => TraceItem.act a e (taskErrOf env ls { event := e, actor := a }))) ∧
    ∀ a ∈ ls b,
      TraceItem.act a e (taskErrOf env ls { event := e, actor := a })
        ∈ (runSteps env (ls b).length
            ⟨ls, (ls b).map (fun a => { event := e, actor := a })⟩).2 := by
  have key :
      runSteps env (ls b).length ⟨ls, (ls b).map (fun a => { event := e, actor := a })⟩
        = (⟨ls, tasksChildrenAll env ls ((ls b).map (fun a => { event := e, actor := a }))⟩,
           (ls b).map (fun a => TraceItem.act a e (taskErrOf env ls { event := e, actor := a }))) := by
    have h0 := runSteps_firstN env ls ((ls b).map (fun a => { event := e, actor := a })) []
    simpa [List.map_map, Function.comp] using h0
  refine ⟨rfl, key, ?_⟩
  intro a ha
  rw [key]
  exact List.mem_map_of_mem _ ha

/-- C4 witness: in the two-listener state where both siblings fail, each
sibling's invocation is present in the run trace. -/
theorem sibling_isolation_w :
    TraceItem.act 0 e1C (taskErrOf envC5 hC5pre.listeners { event := e1C, actor := 0 })
      ∈ (runSteps envC5 (hC5pre.listeners BusType.Devices).length
          ⟨hC5pre.listeners,
           (hC5pre.listeners BusType.Devices).map
             (fun a => { event := e1C, actor := a })⟩).2 :=
  (sibling_isolation envC5 hC5pre.listeners BusType.Devices e1C).2.2 0 (by decide)

/-- C6: `make_event` stamps the clock and wraps the payload unchanged,
and dispatch shares the constructed value itself: every task a `put`
adds to the in-flight set carries exactly the published event (no
operation of the dispatcher produces a modified copy of an event). -/
theorem event_values_shared_unmodified (now : Nat) (d : Payload) (h h' : HEB)
    (e : Event) (k : BusKey) (hput : h.put e k = .ok h') :
    (make_event now d).created_on = now ∧
    (make_event now d).data = d ∧
    ∀ t ∈ h'.background_tasks, t ∈ h.background_tasks ∨ t.event = e := by
  refine ⟨rfl, rfl, ?_⟩
  cases k with
  | invalid n => simp [HEB.put, lookupListeners] at hput
  | valid b =>
      have hx := put_valid h e b
      rw [hput] at hx
      injection hx with hx
      subst hx
      intro t ht
      rcases List.mem_append.mp ht with h1 | h1
      · exact Or.inl h1
      · obtain ⟨a, _, rfl⟩ := List.mem_map.mp h1
        exact Or.inr rfl

/-- C6 witness: the theorem applied at a concrete construction and a
concrete successful publish. -/
theorem event_values_shared_unmodified_w :
    (make_event 5 [("x", 1)]).created_on = 5 ∧
    (make_event 5 [("x", 1)]).data = [("x", 1)] ∧
    ∀ t ∈ HEB.init.background_tasks, t ∈ HEB.init.background_tasks ∨ t.event = e1C :=
  event_values_shared_unmodified 5 [("x", 1)] HEB.init HEB.init e1C
    (BusKey.valid BusType.Devices) rfl

/-- C7: publishing the `N` events `es` on a bus whose listener list is
the `K` actors `ls b` spawns exactly the `(event, listener)` product in
order — `N * K` tasks, each pair appearing exactly once (under
distinctness of the events and of the listeners) — and running the
scheduler that many steps performs exactly one `act` invocation per
spawned pair, in order, whatever further events those invocations
themselves publish (`env` is arbitrary). -/
theorem fanout_exactly_once_per_pair (env : Env) (ls : BusType → List ActorId)
    (b : BusType) (es : List Event) (hes : es.Nodup) (hL : (ls b).Nodup) :
    putMany ⟨ls, []⟩ es (BusKey.valid b) = .ok ⟨ls, prodTasks (ls b) es⟩ ∧
    (prodTasks (ls b) es).length = es.length * (ls b).length ∧
    (∀ t : Task, t ∈ prodTasks (ls b) es ↔ t.event ∈ es ∧ t.actor ∈ ls b) ∧
    (prodTasks (ls b) es).Nodup ∧
    (runSteps env (prodTasks (ls b) es).length ⟨ls, prodTasks (ls b) es⟩).2
      = (prodTasks (ls b) es).map
          (fun t => TraceItem.act t.actor t.event (taskErrOf env ls t)) := by
  refine ⟨?_, prodTasks_length (ls b) es, fun t => mem_prodTasks (ls b) t es,
          nodup_prodTasks (ls b) es hes hL, ?_⟩
  · simpa using putMany_valid b es ls []
  · have h0 := congrArg Prod.snd (runSteps_firstN env ls (prodTasks (ls b) es) [])
    simpa using h0

/-- C7 witness: two distinct events published to the one-listener
`Devices` registry of `hC1pre` give `2 * 1` spawned invocations. -/
theorem fanout_exactly_once_per_pair_w :
    (prodTasks (hC1pre.listeners BusType.Devices) [e1C, e2C]).length
      = [e1C, e2C].length * (hC1pre.listeners BusType.Devices).length :=
  (fanout_exactly_once_per_pair envTriv hC1pre.listeners BusType.Devices [e1C, e2C]
    (by decide) (by decide)).2.1

/-- C8: after any sequence of `register` calls from a fresh dispatcher,
the listener list of a bus is exactly the actors registered on it in
registration order, and a `put` on that bus creates its units of work in
exactly that order (the registry list is traversed front to back and
each task appended as created). -/
theorem spawn_order_follows_registration (regs : List (ActorId × BusType))
    (b : BusType) (e : Event) :
    (regMany HEB.init regs).listeners b
      = (regs.filter (fun p => p.2 == b)).map Prod.fst ∧
    (regMany HEB.init regs).background_tasks = [] ∧
    (regMany HEB.init regs).put e (BusKey.valid b)
      = .ok ⟨(regMany HEB.init regs).listeners,
             ((regs.filter (fun p => p.2 == b)).map Prod.fst).map
               (fun a => { event := e, actor := a })⟩ := by
  have hl := regMany_listeners b regs HEB.init
  have ht := regMany_tasks regs HEB.init
  rw [show HEB.init.listeners b = [] from rfl, List.nil_append] at hl
  rw [show HEB.init.background_tasks = [] from rfl] at ht
  refine ⟨hl, ht, ?_⟩
  rw [put_valid, hl, ht]
  simp

/-- C9: a `put` spawns tasks only for the listeners registered at the
moment of the call, so an actor registered afterwards receives no unit
of work for the earlier publication; the registration itself creates no
work; and the registry being consulted freshly, the next publication on
that bus does spawn a unit of work for the newly registered actor. -/
theorem late_registration (h0 : HEB) (a : ActorId) (b : BusType) (ea eb : Event)
    (ha : a ∉ h0.listeners b) :
    ∃ h1 h2 h3,
      h0.put ea (BusKey.valid b) = .ok h1 ∧
      (∀ t ∈ h1.background_tasks, t.actor = a → t ∈ h0.background_tasks) ∧
      h1.register a (BusKey.valid b) = .ok h2 ∧
      h2.background_tasks = h1.background_tasks ∧
      h2.listeners b = h0.listeners b ++ [a] ∧
      h2.put eb (BusKey.valid b) = .ok h3 ∧
      ({ event := eb, actor := a } : Task) ∈ h3.background_tasks := by
  refine ⟨_, _, _, put_valid h0 ea b, ?_, register_valid _ a b, registerOk_tasks _ a b,
          ?_, put_valid _ eb b, ?_⟩
  · intro t ht hact
    rcases List.mem_append.mp ht with h1 | h1
    · exact h1
    · obtain ⟨a', ha', rfl⟩ := List.mem_map.mp h1
      exact absurd (hact ▸ ha') ha
  · exact registerOk_listeners_same _ a b
  · refine List.mem_append.mpr (Or.inr ?_)
    refine List.mem_map_of_mem _ ?_
    have : (registerOk ⟨h0.listeners,
        h0.background_tasks ++ (h0.listeners b).map (fun x => { event := ea, actor := x })⟩
        a b).listeners b = h0.listeners b ++ [a] :=
      registerOk_listeners_same _ a b
    rw [this]
    exact List.mem_append.mpr (Or.inr (List.mem_singleton.mpr rfl))

/-- C9 witness: the theorem applied from the fresh dispatcher, where
actor `0` is not yet registered on `Devices`. -/
theorem late_registration_w :
    ∃ h1 h2 h3,
      HEB.init.put e1C (BusKey.valid BusType.Devices) = .ok h1 ∧
      (∀ t ∈ h1.background_tasks, t.actor = 0 → t ∈ HEB.init.background_tasks) ∧
      h1.register 0 (BusKey.valid BusType.Devices) = .ok h2 ∧
      h2.background_tasks = h1.background_tasks ∧
      h2.listeners BusType.Devices = HEB.init.listeners BusType.Devices ++ [0] ∧
      h2.put e2C (BusKey.valid BusType.Devices) = .ok h3 ∧
      ({ event := e2C, actor := 0 } : Task) ∈ h3.background_tasks :=
  late_registration HEB.init 0 BusType.Devices e1C e2C (by decide)

/-- C10: `register` on bus `b` changes nothing but the listener list of
`b`, to which the actor is appended at the end — every other bus's list
and the in-flight task set are untouched — and a successful `put`
changes no listener list of any bus, only appending to the in-flight
task set. -/
theorem frame_conditions (h : HEB) (a : ActorId) (b : BusType) (e : Event)
    (k : BusKey) (h' : HEB) (hput : h.put e k = .ok h') :
    h.register a (BusKey.valid b) = .ok (registerOk h a b) ∧
    (registerOk h a b).background_tasks = h.background_tasks ∧
    (registerOk h a b).listeners b = h.listeners b ++ [a] ∧
    (∀ b', b' ≠ b → (registerOk h a b).listeners b' = h.listeners b') ∧
    (∀ b', h'.listeners b' = h.listeners b') ∧
    (∃ spawned, h'.background_tasks = h.background_tasks ++ spawned) := by
  cases k with
  | invalid n => simp [HEB.put, lookupListeners] at hput
  | valid c =>
      have hx := put_valid h e c
      rw [hput] at hx
      injection hx with hx
      subst hx
      exact ⟨register_valid h a b, registerOk_tasks h a b, registerOk_listeners_same h a b,
             fun b' hb => registerOk_listeners_other h a b b' hb,
             fun b' => rfl, ⟨_, rfl⟩⟩

/-- C10 witness: the frame of `register` extracted from the theorem at a
concrete state and a concrete successful `put`. -/
theorem frame_conditions_w :
    HEB.init.register 0 (BusKey.valid BusType.Devices)
      = .ok (registerOk HEB.init 0 BusType.Devices) :=
  (frame_conditions HEB.init 0 BusType.Devices e1C (BusKey.valid BusType.Devices)
    HEB.init rfl).1

end Evdm
